import Mathlib

/-!
Verification of the rss-sift ingestion/dedup/classification pipeline
(src/rss-sift.py) against its natural-language specification.

Shallow embedding conventions:
  * text is modelled as a `String` or as its list of Unicode code points
    (`List Nat`); Python's `str.split()` / `str.lower()` / `str.strip()` and
    the two regular expressions of `evaluate_entry` are embedded as
    executable functions over code-point lists;
  * timestamps are integers (seconds); `datetime.now(timezone)` is modelled
    by an explicit clock `Nat → Int` indexed by the order of the calls made
    during one run (index 0 is the first reading taken during the run);
  * the SQLite store is a pair of lists (`feed_data`, `feed_meta`); the
    SQLAlchemy session's autoflush makes pending inserts visible to the
    dedup query, which the list model reproduces;
  * the remote classifier call (`replicate.run`) and the HTTP fetch
    (`requests.get`) are modelled by their outcome, passed in as a value
    (`Except`); `raise_for_status` raises exactly for status 400–599;
  * SHA-256 (`hashlib.sha256(...).hexdigest()`) is implemented in full over
    byte lists, words as `Nat` reduced mod 2^32.
-/

/-! ## Code points and Python string primitives -/

/-- The code points of a string, the alphabet all parsing functions work over. -/
def codePoints (s : String) : List Nat :=
  s.data.map Char.toNat

/-- Python's whitespace class (`str.split()` separators and regex `\s`),
restricted to ASCII: space, tab, newline, carriage return, vertical tab,
form feed. -/
def isPyWs (c : Nat) : Bool :=
  c = 32 || c = 9 || c = 10 || c = 13 || c = 11 || c = 12

/-- Python's `str.lower()` on one character, ASCII range. -/
def pyLower (c : Nat) : Nat :=
  if 65 ≤ c ∧ c ≤ 90 then c + 32 else c

/-- Python's `str.strip()`: drop whitespace from both ends. -/
def pyStrip (l : List Nat) : List Nat :=
  ((l.dropWhile isPyWs).reverse.dropWhile isPyWs).reverse

/-- Accumulator worker for `pySplit`; `acc` holds the current word reversed. -/
def pySplitAux : List Nat → List Nat → List (List Nat)
  | [], acc => if acc = [] then [] else [acc.reverse]
  | c :: cs, acc =>
    if isPyWs c then
      if acc = [] then pySplitAux cs [] else acc.reverse :: pySplitAux cs []
    else
      pySplitAux cs (c :: acc)

/-- Python's `str.split()` with no argument: split on runs of whitespace,
discarding empty pieces. -/
def pySplit (l : List Nat) : List (List Nat) :=
  pySplitAux l []

/-- Python's `sub in s` substring test. -/
def containsSub (pat : List Nat) : List Nat → Bool
  | [] => pat.isEmpty
  | c :: t => pat.isPrefixOf (c :: t) || containsSub pat t

/-- The code points of `"yes"`. -/
def yesWord : List Nat := [121, 101, 115]

/-! ## The two regular expressions of `evaluate_entry` -/

/-- Regex `\d`, ASCII digits. -/
def isReDigit (c : Nat) : Bool :=
  48 ≤ c && c ≤ 57

/-- Regex `\w`, ASCII word characters (letter, digit or underscore). -/
def isWordChar (c : Nat) : Bool :=
  isReDigit c || (65 ≤ c && c ≤ 90) || (97 ≤ c && c ≤ 122) || c = 95

/-- One attempt of the year-fragment regex `(19|20)\s*\d\s*\d?` at the head of
the list: the greedy match and the remaining suffix, or `none`.  (`\s*` and
`\d` are disjoint classes, so greedy matching needs no backtracking; if no
digit follows the second `\s*`, `\d?` matches empty and the whitespace stays
inside the match, exactly as Python's `re` behaves.) -/
def matchYearFrag (l : List Nat) : Option (List Nat × List Nat) :=
  match l with
  | c1 :: c2 :: rest =>
    if (c1 = 49 ∧ c2 = 57) ∨ (c1 = 50 ∧ c2 = 48) then
      let ws1 := rest.takeWhile isPyWs
      match rest.dropWhile isPyWs with
      | d1 :: r2 =>
        if isReDigit d1 then
          let ws2 := r2.takeWhile isPyWs
          match r2.dropWhile isPyWs with
          | d2 :: r4 =>
            if isReDigit d2 then
              some (c1 :: c2 :: (ws1 ++ d1 :: (ws2 ++ [d2])), r4)
            else
              some (c1 :: c2 :: (ws1 ++ d1 :: ws2), r2.dropWhile isPyWs)
          | [] => some (c1 :: c2 :: (ws1 ++ d1 :: ws2), [])
        else none
      | [] => none
    else none
  | _ => none

/-- One pass of
`re.sub(r"(19|20)\s*\d\s*\d?", lambda m: m.group().replace(" ", ""), s)`:
scan left to right, replace each non-overlapping match by itself with the
space characters (only U+0020, as `replace(" ", "")` does) removed.
`fuel` bounds the recursion; `fuel = l.length` always suffices because every
step consumes at least one element. -/
def reSubYearAux : Nat → List Nat → List Nat
  | 0, l => l
  | _ + 1, [] => []
  | fuel + 1, c :: cs =>
    match matchYearFrag (c :: cs) with
    | some (m, r) => m.filter (fun x => !(x = 32 : Bool)) ++ reSubYearAux fuel r
    | none => c :: reSubYearAux fuel cs

/-- One `re.sub` pass of the year-fragment reassembly. -/
def reSubYear (l : List Nat) : List Nat :=
  reSubYearAux l.length l

/-- The three reassembly passes of the `for _ in range(3)` loop. -/
def reSubYear3 (l : List Nat) : List Nat :=
  reSubYear (reSubYear (reSubYear l))

/-- Does `re.search(r"\b(19|20)\d{2}\b", s)` match at the head of `l`?  If so,
`int(match.group())`, the year value.  The leading `\b` is checked by the
caller (the character before must not be a word character); the trailing `\b`
holds when the list ends or continues with a non-word character. -/
def yearAt (l : List Nat) : Option Int :=
  match l with
  | c1 :: c2 :: c3 :: c4 :: rest =>
    if ((c1 = 49 ∧ c2 = 57) ∨ (c1 = 50 ∧ c2 = 48)) ∧ isReDigit c3 ∧ isReDigit c4
        ∧ (match rest with | [] => true | c5 :: _ => !isWordChar c5) = true then
      some (((c1 - 48) * 1000 + (c2 - 48) * 100 + (c3 - 48) * 10 + (c4 - 48) : Nat))
    else none
  | _ => none

/-- Left-to-right scan of `re.search(r"\b(19|20)\d{2}\b", s)`; `prev` is the
character before the current position (`none` at the start of the string). -/
def searchYearAux (prev : Option Nat) : List Nat → Option Int
  | [] => none
  | c :: cs =>
    if (match prev with | none => true | some p => !isWordChar p) then
      match yearAt (c :: cs) with
      | some y => some y
      | none => searchYearAux (some c) cs
    else searchYearAux (some c) cs

/-- `re.search(r"\b(19|20)\d{2}\b", s)`, returning `int(match.group())` of the
leftmost match. -/
def searchYear (l : List Nat) : Option Int :=
  searchYearAux none l

/-! ## The reply parser of `evaluate_entry` (src/rss-sift.py lines 113-135) -/

/-- The parsing half of `evaluate_entry` applied to the joined reply text:
three reassembly passes for the year, first-word test for relevance
(`full_response.split()[0].lower().strip()` then `"yes" in first_word`),
year extraction by `re.search(r"\b(19|20)\d{2}\b", ...)`. -/
def parseReply (full_response : List Nat) : Bool × Option Int :=
  let year_candidate := reSubYear3 full_response
  let first_word :=
    match pySplit full_response with
    | [] => []
    | w :: _ => pyStrip (w.map pyLower)
  let is_interesting := containsSub yesWord first_word
  let published_year := searchYear year_candidate
  (is_interesting, published_year)

/-- `parseReply` on a `String` reply. -/
def parseVerdict (s : String) : Bool × Option Int :=
  parseReply (codePoints s)

/-- `full_response = " ".join(output)`: the reply fragments joined by single
spaces. -/
def joinSpace : List String → String
  | [] => ""
  | [s] => s
  | s :: rest => s ++ " " ++ joinSpace rest

/-- `evaluate_entry` (src/rss-sift.py lines 81-145) as a function of the
remote call's outcome: the `try` body joins the fragments and parses them;
the `except` arm returns `(False, None)`. -/
def evaluate_entry (remote : Except String (List String)) : Bool × Option Int :=
  match remote with
  | Except.error _ => (false, none)
  | Except.ok output => parseVerdict (joinSpace output)

/-! ## SHA-256 (`hashlib.sha256(...).hexdigest()`), words as `Nat` mod 2^32 -/

/-- Reduce to a 32-bit word. -/
def w32 (n : Nat) : Nat := n % 4294967296

/-- 32-bit right rotation. -/
def rotr32 (n x : Nat) : Nat := w32 ((x >>> n) ||| (x <<< (32 - n)))

/-- 32-bit bitwise complement. -/
def bnot32 (x : Nat) : Nat := x ^^^ 4294967295

/-- SHA-256 big Sigma 0. -/
def sigUpper0 (x : Nat) : Nat := rotr32 2 x ^^^ rotr32 13 x ^^^ rotr32 22 x

/-- SHA-256 big Sigma 1. -/
def sigUpper1 (x : Nat) : Nat := rotr32 6 x ^^^ rotr32 11 x ^^^ rotr32 25 x

/-- SHA-256 small sigma 0. -/
def sigLower0 (x : Nat) : Nat := rotr32 7 x ^^^ rotr32 18 x ^^^ (x >>> 3)

/-- SHA-256 small sigma 1. -/
def sigLower1 (x : Nat) : Nat := rotr32 17 x ^^^ rotr32 19 x ^^^ (x >>> 10)

/-- SHA-256 choice function. -/
def shaCh (x y z : Nat) : Nat := (x &&& y) ^^^ (bnot32 x &&& z)

/-- SHA-256 majority function. -/
def shaMaj (x y z : Nat) : Nat := (x &&& y) ^^^ (x &&& z) ^^^ (y &&& z)

/-- The 64 SHA-256 round constants (FIPS 180-4, written in decimal). -/
def shaK : List Nat :=
  [1116352408, 1899447441, 3049323471, 3921009573,
   961987163, 1508970993, 2453635748, 2870763221,
   3624381080, 310598401, 607225278, 1426881987,
   1925078388, 2162078206, 2614888103, 3248222580,
   3835390401, 4022224774, 264347078, 604807628,
   770255983, 1249150122, 1555081692, 1996064986,
   2554220882, 2821834349, 2952996808, 3210313671,
   3336571891, 3584528711, 113926993, 338241895,
   666307205, 773529912, 1294757372, 1396182291,
   1695183700, 1986661051, 2177026350, 2456956037,
   2730485921, 2820302411, 3259730800, 3345764771,
   3516065817, 3600352804, 4094571909, 275423344,
   430227734, 506948616, 659060556, 883997877,
   958139571, 1322822218, 1537002063, 1747873779,
   1955562222, 2024104815, 2227730452, 2361852424,
   2428436474, 2756734187, 3204031479, 3329325298]

/-- The eight 32-bit words of the SHA-256 state. -/
structure Sha256State where
  a : Nat
  b : Nat
  c : Nat
  d : Nat
  e : Nat
  f : Nat
  g : Nat
  h : Nat

/-- SHA-256 initial hash value (FIPS 180-4, written in decimal). -/
def shaInit : Sha256State :=
  ⟨1779033703, 3144134277, 1013904242, 2773480762,
   1359893119, 2600822924, 528734635, 1541459225⟩

/-- The bit length of the message as eight big-endian bytes. -/
def lenBytes (bits : Nat) : List Nat :=
  [(bits >>> 56) % 256, (bits >>> 48) % 256, (bits >>> 40) % 256,
   (bits >>> 32) % 256, (bits >>> 24) % 256, (bits >>> 16) % 256,
   (bits >>> 8) % 256, bits % 256]

/-- SHA-256 padding: append `0x80`, zero bytes up to 56 mod 64, then the
64-bit big-endian bit length. -/
def padMessage (msg : List Nat) : List Nat :=
  msg ++ 128 :: List.replicate ((120 - ((msg.length + 1) % 64)) % 64) 0
      ++ lenBytes (msg.length * 8)

/-- Split into chunks of 64 bytes; `fuel = l.length` suffices. -/
def chunks64Aux : Nat → List Nat → List (List Nat)
  | 0, _ => []
  | _ + 1, [] => []
  | fuel + 1, l => l.take 64 :: chunks64Aux fuel (l.drop 64)

/-- The 64-byte chunks of the padded message. -/
def chunks64 (l : List Nat) : List (List Nat) :=
  chunks64Aux l.length l

/-- Big-endian 4-byte groups to 32-bit words. -/
def bytesToWords : List Nat → List Nat
  | b0 :: b1 :: b2 :: b3 :: rest =>
    ((b0 <<< 24) ||| (b1 <<< 16) ||| (b2 <<< 8) ||| b3) :: bytesToWords rest
  | _ => []

/-- Extend the message schedule by one word; the accumulator is kept in
reverse, so index 1 is w[i-2], index 6 is w[i-7], index 14 is w[i-15] and
index 15 is w[i-16]. -/
def extendW (wrev : List Nat) : List Nat :=
  w32 (sigLower1 (wrev.getD 1 0) + wrev.getD 6 0 + sigLower0 (wrev.getD 14 0)
      + wrev.getD 15 0) :: wrev

/-- The 64-entry message schedule of one chunk. -/
def schedule (chunk : List Nat) : List Nat :=
  (extendW^[48] (bytesToWords chunk).reverse).reverse

/-- One SHA-256 compression round with round constant `kw.1` and schedule
word `kw.2`. -/
def shaRound (st : Sha256State) (kw : Nat × Nat) : Sha256State :=
  let t1 := w32 (st.h + sigUpper1 st.e + shaCh st.e st.f st.g + kw.1 + kw.2)
  let t2 := w32 (sigUpper0 st.a + shaMaj st.a st.b st.c)
  ⟨w32 (t1 + t2), st.a, st.b, st.c, w32 (st.d + t1), st.e, st.f, st.g⟩

/-- Compress one 64-byte chunk into the running hash value. -/
def compressChunk (st : Sha256State) (chunk : List Nat) : Sha256State :=
  let f := (shaK.zip (schedule chunk)).foldl shaRound st
  ⟨w32 (st.a + f.a), w32 (st.b + f.b), w32 (st.c + f.c), w32 (st.d + f.d),
   w32 (st.e + f.e), w32 (st.f + f.f), w32 (st.g + f.g), w32 (st.h + f.h)⟩

/-- SHA-256 of a byte list, as the final eight-word state. -/
def sha256Words (msg : List Nat) : Sha256State :=
  (chunks64 (padMessage msg)).foldl compressChunk shaInit

/-- One lowercase hex digit. -/
def hexDigit (n : Nat) : Nat :=
  if n < 10 then 48 + n else 87 + n

/-- The eight hex digits of one 32-bit word, as code points. -/
def hexWord (x : Nat) : List Nat :=
  [hexDigit ((x >>> 28) % 16), hexDigit ((x >>> 24) % 16),
   hexDigit ((x >>> 20) % 16), hexDigit ((x >>> 16) % 16),
   hexDigit ((x >>> 12) % 16), hexDigit ((x >>> 8) % 16),
   hexDigit ((x >>> 4) % 16), hexDigit (x % 16)]

/-- `hashlib.sha256(msg).hexdigest()` as a code-point list. -/
def sha256hex (msg : List Nat) : List Nat :=
  let s := sha256Words msg
  hexWord s.a ++ hexWord s.b ++ hexWord s.c ++ hexWord s.d
    ++ hexWord s.e ++ hexWord s.f ++ hexWord s.g ++ hexWord s.h

/-- UTF-8 encoding of one code point. -/
def utf8Encode (c : Nat) : List Nat :=
  if c < 128 then [c]
  else if c < 2048 then
    [192 ||| (c >>> 6), 128 ||| (c &&& 63)]
  else if c < 65536 then
    [224 ||| (c >>> 12), 128 ||| ((c >>> 6) &&& 63), 128 ||| (c &&& 63)]
  else
    [240 ||| (c >>> 18), 128 ||| ((c >>> 12) &&& 63),
     128 ||| ((c >>> 6) &&& 63), 128 ||| (c &&& 63)]

/-- Concatenate a list of byte lists. -/
def flattenBytes : List (List Nat) → List Nat
  | [] => []
  | x :: xs => x ++ flattenBytes xs

/-- `s.encode("utf-8")`: the UTF-8 bytes of a string. -/
def strBytes (s : String) : List Nat :=
  flattenBytes (s.data.map (fun c => utf8Encode c.toNat))

/-- A code-point list rendered back as a `String` (all points produced by
`sha256hex` are ASCII). -/
def stringOfPoints (l : List Nat) : String :=
  ⟨l.map Char.ofNat⟩

/-- `f"{title}{link}{additional_info}"`: the hash input of `generate_hash`
(src/rss-sift.py line 159) — the three fields concatenated with no
separator. -/
def hash_input (title link additional_info : String) : String :=
  title ++ link ++ additional_info

/-- `generate_hash` (src/rss-sift.py lines 158-160): the SHA-256 hex digest
of the UTF-8 bytes of the concatenated fields. -/
def generate_hash (title link additional_info : String) : String :=
  stringOfPoints (sha256hex (strBytes (hash_input title link additional_info)))

/-! ## Data model: the two tables of feeds.db -/

/-- A row of the `feed_data` table.  `skip_ai = true` marks a rejected entry
(the record is stored either way); `created` is the insertion timestamp. -/
structure FeedData where
  feed_name : String
  title : String
  link : String
  additional_info : String
  hash : String
  skip_ai : Bool
  created : Int
deriving DecidableEq

/-- A row of the `feed_meta` table. -/
structure FeedMeta where
  feed_name : String
  last_fetched : Int
deriving DecidableEq

/-- The store: both tables. -/
structure DB where
  feed_data : List FeedData
  feed_meta : List FeedMeta
deriving DecidableEq

/-! ## Fetch (src/rss-sift.py lines 148-155) -/

/-- A completed HTTP exchange. -/
structure HttpResponse where
  status : Nat
  text : String
deriving DecidableEq

/-- `response.raise_for_status()`: `requests` raises `HTTPError` exactly for
status codes 400-599. -/
def raise_for_status (r : HttpResponse) : Option HttpResponse :=
  if 400 ≤ r.status ∧ r.status < 600 then none else some r

/-- `fetch_html` as a function of the transport outcome: a transport error
(`requests.RequestException`) or a raising `raise_for_status` is caught and
becomes `None`; otherwise `response.text` is returned. -/
def fetch_html (resp : Except String HttpResponse) : Option String :=
  match resp with
  | Except.error _ => none
  | Except.ok r =>
    match raise_for_status r with
    | none => none
    | some r' => some r'.text

/-! ## Acceptance decision (src/rss-sift.py lines 216-222) -/

/-- `year_ok = published_year is None or published_year >= target_year - 1`. -/
def year_ok (published_year : Option Int) (target_year : Int) : Bool :=
  match published_year with
  | none => true
  | some y => decide (target_year - 1 ≤ y)

/-- `skip_ai = not (year_ok and ai_ok)` where `ai_ok = is_interesting`. -/
def skip_ai_flag (is_interesting : Bool) (published_year : Option Int)
    (target_year : Int) : Bool :=
  !(year_ok published_year target_year && is_interesting)

/-- An entry is accepted into the feed iff it is not marked skipped. -/
def entry_accepted (is_interesting : Bool) (published_year : Option Int)
    (target_year : Int) : Bool :=
  !(skip_ai_flag is_interesting published_year target_year)

/-! ## Ingestion pipeline (`parse_and_store_feed`, src/rss-sift.py 163-257) -/

/-- One extracted candidate item: the three stored fields plus the article
HTML snippet handed to the classifier (the article with its post-date
sub-block removed). -/
structure Candidate where
  title : String
  link : String
  additional_info : String
  article_html : String
deriving DecidableEq

/-- The mutable state threaded through one run: the store, the log of
classifier invocations (title, html) made so far, and the index of the next
`datetime.now` reading. -/
structure RunState where
  db : DB
  calls : List (String × String)
  tick : Nat
deriving DecidableEq

/-- The per-candidate body of the loop in `parse_and_store_feed` (lines
198-245): compute the fingerprint; if a record with that hash exists
(committed or pending — the session's autoflush makes pending inserts
visible to the query), skip; otherwise classify, decide, and insert the
record unconditionally with `link = url_prefix + link`. -/
def processCandidate (feed_name url_prefix : String) (target_year : Int)
    (classify : String → String → Bool × Option Int) (clock : Nat → Int)
    (s : RunState) (c : Candidate) : RunState :=
  let entry_hash := generate_hash c.title c.link c.additional_info
  if s.db.feed_data.any (fun fd => fd.hash == entry_hash) then s
  else
    let verdict := classify c.title c.article_html
    let sk := skip_ai_flag verdict.1 verdict.2 target_year
    let fd : FeedData :=
      ⟨feed_name, c.title, url_prefix ++ c.link, c.additional_info,
       entry_hash, sk, clock s.tick⟩
    ⟨⟨s.db.feed_data ++ [fd], s.db.feed_meta⟩,
     s.calls ++ [(c.title, c.article_html)], s.tick + 1⟩

/-- The candidate loop of one run, started on store `db` with no classifier
calls made and the clock at reading 0. -/
def runCandidates (feed_name url_prefix : String) (target_year : Int)
    (classify : String → String → Bool × Option Int) (clock : Nat → Int)
    (db : DB) (cands : List Candidate) : RunState :=
  cands.foldl (processCandidate feed_name url_prefix target_year classify clock)
    ⟨db, [], 0⟩

/-- `session.query(FeedMeta).filter_by(feed_name=...).first()` then mutating
that row: update the first matching row's `last_fetched`. -/
def updateFirstMeta (feed_name : String) (now : Int) :
    List FeedMeta → List FeedMeta
  | [] => []
  | m :: ms =>
    if m.feed_name == feed_name then ⟨m.feed_name, now⟩ :: ms
    else m :: updateFirstMeta feed_name now ms

/-- `parse_and_store_feed` (src/rss-sift.py lines 163-257).  Inputs beyond
the configuration: the HTTP outcome `resp`, the extraction function applied
to the fetched HTML (the BeautifulSoup traversal, outside the claims'
scope), the classifier verdict function and the clock.  Returns the store
after the run together with the list of classifier invocations the run made.
On fetch failure the function returns with no mutation; otherwise each
candidate is processed and finally `last_fetched` is upserted to a fresh
`datetime.now` reading. -/
def parse_and_store_feed (feed_name url_prefix : String) (target_year : Int)
    (classify : String → String → Bool × Option Int) (clock : Nat → Int)
    (resp : Except String HttpResponse) (extract : String → List Candidate)
    (db : DB) : DB × List (String × String) :=
  match fetch_html resp with
  | none => (db, [])
  | some html =>
    let s := runCandidates feed_name url_prefix target_year classify clock db
      (extract html)
    let now := clock s.tick
    let meta :=
      if s.db.feed_meta.any (fun m => m.feed_name == feed_name) then
        updateFirstMeta feed_name now s.db.feed_meta
      else
        s.db.feed_meta ++ [⟨feed_name, now⟩]
    (⟨s.db.feed_data, meta⟩, s.calls)

/-! ## Retention sweep and bulk clear (src/rss-sift.py 326-347) -/

/-- `cleanup_old_entries` (lines 341-347): delete the `feed_data` rows with
`created < now - timedelta(days=30)`; returns the store and the deletion
count.  Timestamps are in seconds, so 30 days is `30 * 86400`. -/
def cleanup_old_entries (now : Int) (db : DB) : DB × Nat :=
  let cutoff := now - 30 * 86400
  let kept := db.feed_data.filter (fun fd => !(decide (fd.created < cutoff)))
  (⟨kept, db.feed_meta⟩, db.feed_data.length - kept.length)

/-- The `/clean` route (lines 326-338): delete the `feed_data` rows of one
feed; `feed_meta` is untouched. -/
def clean_feed (feed_name : String) (db : DB) : DB :=
  ⟨db.feed_data.filter (fun fd => !(fd.feed_name == feed_name)), db.feed_meta⟩


/-! ## Spec-side definitions (for refinement comparison only) -/

/-- The spec's relevance rule, stated as written: lowercase the whole reply,
take its first whitespace-delimited token, test whether it contains the
substring "yes"; a reply with no token is not relevant. -/
def relevant_spec (s : String) : Bool :=
  match pySplit ((codePoints s).map pyLower) with
  | [] => false
  | w :: _ => containsSub yesWord w

/-- The spec's reading of the year-fragment reassembly: within a matched
fragment group all whitespace separating the digit fragments is removed
(not only the space character).  Defined for comparison with `reSubYear`. -/
def wsRejoinAux : Nat → List Nat → List Nat
  | 0, l => l
  | _ + 1, [] => []
  | fuel + 1, c :: cs =>
    match matchYearFrag (c :: cs) with
    | some (m, r) => m.filter (fun x => !isPyWs x) ++ wsRejoinAux fuel r
    | none => c :: wsRejoinAux fuel cs

/-- One whitespace-removing reassembly pass, per the spec's words. -/
def wsRejoin (l : List Nat) : List Nat :=
  wsRejoinAux l.length l

/-- The spec's year parse: three whitespace-rejoining passes, then the year
scan. -/
def year_spec (s : String) : Option Int :=
  searchYear (wsRejoin (wsRejoin (wsRejoin (codePoints s))))

/-- The fingerprint of a candidate, as the loop computes it (from the raw
extracted link, before the url prefix is applied). -/
def candHash (c : Candidate) : String :=
  generate_hash c.title c.link c.additional_info

/-- The number of stored rows carrying a given fingerprint. -/
def countHash (h : String) (fds : List FeedData) : Nat :=
  (fds.filter fun fd => fd.hash == h).length

/-! ## Concrete fixtures used by the witness theorems -/

/-- A classifier stub: everything relevant, no year. -/
def classify0 : String → String → Bool × Option Int := fun _ _ => (true, none)

/-- The identity clock: reading `k` is the instant `k`. -/
def clock0 : Nat → Int := fun k => (k : Int)

/-- A successful HTTP exchange. -/
def resp200 : Except String HttpResponse := Except.ok ⟨200, "page"⟩

/-- A failing HTTP exchange: status 500. -/
def resp500 : Except String HttpResponse := Except.ok ⟨500, "oops"⟩

/-- A `304 Not Modified` exchange: non-2xx, yet `raise_for_status` passes. -/
def resp304 : Except String HttpResponse := Except.ok ⟨304, ""⟩

/-- One concrete candidate. -/
def cand0 : Candidate := ⟨"t", "l", "i", "h"⟩

/-- An extractor producing exactly `cand0`. -/
def extract0 : String → List Candidate := fun _ => [cand0]

/-- The empty store. -/
def db0 : DB := ⟨[], []⟩

/-- A store already holding `cand0`'s fingerprint, stored rejected
(`skip_ai = true`, i.e. `accepted = false`). -/
def dbSeen : DB := ⟨[⟨"f", "t", "p" ++ "l", "i", candHash cand0, true, 0⟩], []⟩

/-- A store with one `feed_meta` row for feed `"f"`. -/
def dbMeta : DB := ⟨[], [⟨"f", -5⟩]⟩

/-! ## C1: acceptance decision -/

/-- C1: for every classifier verdict `(relevant, published_year)` and every
`target_year`, the entry is accepted iff `relevant` holds and the year is
absent or at least `target_year - 1`; and the four boundary cases at
`target_year = 2025` come out as the claim states (2024 accepted, 2023
rejected, absent accepted, irrelevant 2030 rejected). -/
theorem C1_acceptance_decision :
    (∀ (relevant : Bool) (published_year : Option Int) (target_year : Int),
      entry_accepted relevant published_year target_year = true ↔
        relevant = true ∧ (published_year = none ∨
          ∃ y, published_year = some y ∧ target_year - 1 ≤ y)) ∧
    entry_accepted true (some 2024) 2025 = true ∧
    entry_accepted true (some 2023) 2025 = false ∧
    entry_accepted true none 2025 = true ∧
    entry_accepted false (some 2030) 2025 = false := by
  refine ⟨?_, by decide, by decide, by decide, by decide⟩
  intro relevant published_year target_year
  cases published_year with
  | none =>
    simp [entry_accepted, skip_ai_flag, year_ok]
  | some y =>
    by_cases hy : target_year - 1 ≤ y <;>
      simp [entry_accepted, skip_ai_flag, year_ok, hy] <;> omega

/-! ## C4: classifier failure downgraded to a reject verdict -/

/-- C4: any failing remote classification outcome is mapped by
`evaluate_entry` to the verdict `(false, none)`; on every input the adapter
returns a verdict — either the downgraded reject verdict or the parse of
the joined reply — so no failure propagates to the pipeline. -/
theorem C4_classifier_failure_downgraded :
    (∀ e : String, evaluate_entry (Except.error e) = (false, none)) ∧
    (∀ remote : Except String (List String),
      evaluate_entry remote = (false, none) ∨
        ∃ output, remote = Except.ok output ∧
          evaluate_entry remote = parseVerdict (joinSpace output)) := by
  refine ⟨fun e => rfl, fun remote => ?_⟩
  cases remote with
  | error e => exact Or.inl rfl
  | ok output => exact Or.inr ⟨output, rfl, rfl⟩

/-! ## C9: retention sweep boundary -/

/-- C9: the sweep deletes exactly the `feed_data` rows whose `created` lies
more than 30 days before `now` — membership after the sweep is equivalent to
prior membership with age at most 30 days, a row aged exactly 31 days is
dropped, one aged 29 days is kept, the `accepted` flag plays no role in the
test, and no `feed_meta` row is deleted. -/
theorem C9_retention_sweep (now : Int) (db : DB) :
    ((cleanup_old_entries now db).1.feed_meta = db.feed_meta) ∧
    (∀ fd : FeedData, fd ∈ (cleanup_old_entries now db).1.feed_data ↔
      fd ∈ db.feed_data ∧ ¬(30 * 86400 < now - fd.created)) ∧
    (∀ fd ∈ db.feed_data, fd.created = now - 31 * 86400 →
      fd ∉ (cleanup_old_entries now db).1.feed_data) ∧
    (∀ fd ∈ db.feed_data, fd.created = now - 29 * 86400 →
      fd ∈ (cleanup_old_entries now db).1.feed_data) := by
  have hmem : ∀ fd : FeedData, fd ∈ (cleanup_old_entries now db).1.feed_data ↔
      fd ∈ db.feed_data ∧ ¬(30 * 86400 < now - fd.created) := by
    intro fd
    simp only [cleanup_old_entries, List.mem_filter, Bool.not_eq_true',
      decide_eq_false_iff_not]
    constructor
    · rintro ⟨h1, h2⟩; exact ⟨h1, by omega⟩
    · rintro ⟨h1, h2⟩; exact ⟨h1, by omega⟩
  refine ⟨rfl, hmem, ?_, ?_⟩
  · intro fd hfd hc
    rw [hmem]
    rintro ⟨-, h⟩
    omega
  · intro fd hfd hc
    rw [hmem]
    exact ⟨hfd, by omega⟩

/-- Witness for C9 at a concrete store: with `now = 0`, a row created at
`-31 * 86400` is deleted and a row created at `-29 * 86400` survives. -/
theorem C9_retention_sweep_witness :
    (⟨"f", "t", "l", "i", "h", false, -31 * 86400⟩ : FeedData) ∉
      (cleanup_old_entries 0
        ⟨[⟨"f", "t", "l", "i", "h", false, -31 * 86400⟩,
          ⟨"f", "t2", "l2", "i2", "h2", true, -29 * 86400⟩], []⟩).1.feed_data ∧
    (⟨"f", "t2", "l2", "i2", "h2", true, -29 * 86400⟩ : FeedData) ∈
      (cleanup_old_entries 0
        ⟨[⟨"f", "t", "l", "i", "h", false, -31 * 86400⟩,
          ⟨"f", "t2", "l2", "i2", "h2", true, -29 * 86400⟩], []⟩).1.feed_data := by
  constructor
  · exact (C9_retention_sweep 0 _).2.2.1 _ (by simp) rfl
  · exact (C9_retention_sweep 0 _).2.2.2 _ (by simp) rfl

/-! ## C5: relevance parsing -/

theorem isPyWs_pyLower (c : Nat) : isPyWs (pyLower c) = isPyWs c := by
  unfold pyLower
  split
  · next h =>
    have h65 : 65 ≤ c := h.1
    have h90 : c ≤ 90 := h.2
    have l1 : isPyWs (c + 32) = false := by
      simp only [isPyWs, Bool.or_eq_false_iff, decide_eq_false_iff_not]
      omega
    have l2 : isPyWs c = false := by
      simp only [isPyWs, Bool.or_eq_false_iff, decide_eq_false_iff_not]
      omega
    rw [l1, l2]
  · rfl

theorem pySplitAux_map_pyLower (l : List Nat) :
    ∀ acc : List Nat,
      pySplitAux (l.map pyLower) (acc.map pyLower) =
        (pySplitAux l acc).map (fun w => w.map pyLower) := by
  induction l with
  | nil =>
    intro acc
    cases acc with
    | nil => simp [pySplitAux]
    | cons a as => simp [pySplitAux]
  | cons c cs ih =>
    intro acc
    simp only [List.map_cons, pySplitAux, isPyWs_pyLower]
    by_cases hws : isPyWs c
    · simp only [hws, if_true]
      cases acc with
      | nil =>
        simpa using ih []
      | cons a as =>
        simp only [List.map_cons, List.map_eq_nil_iff]
        have : (a :: as) = [] ↔ False := by simp
        simpa [List.map_reverse] using ih []
    · simp only [hws, if_false]
      have := ih (c :: acc)
      simpa using this

theorem pySplitAux_no_ws (l : List Nat) :
    ∀ acc : List Nat, (∀ c ∈ acc, isPyWs c = false) →
      ∀ w ∈ pySplitAux l acc, ∀ c ∈ w, isPyWs c = false := by
  induction l with
  | nil =>
    intro acc hacc w hw
    simp only [pySplitAux] at hw
    split at hw
    · simp at hw
    · simp only [List.mem_singleton] at hw
      subst hw
      intro c hc
      exact hacc c (List.mem_reverse.mp hc)
  | cons a as ih =>
    intro acc hacc w hw
    simp only [pySplitAux] at hw
    by_cases hws : isPyWs a
    · simp only [hws, if_true] at hw
      split at hw
      · exact ih [] (by simp) w hw
      · rcases List.mem_cons.mp hw with h | h
        · subst h
          intro c hc
          exact hacc c (List.mem_reverse.mp hc)
        · exact ih [] (by simp) w h
    · simp only [hws, if_false] at hw
      refine ih (a :: acc) ?_ w hw
      intro c hc
      rcases List.mem_cons.mp hc with h | h
      · subst h
        exact Bool.not_eq_true _ ▸ (by simpa using hws)
      · exact hacc c h

theorem dropWhile_of_no (p : Nat → Bool) (l : List Nat)
    (h : ∀ c ∈ l, p c = false) : l.dropWhile p = l := by
  cases l with
  | nil => rfl
  | cons a as =>
    rw [List.dropWhile_cons_of_neg]
    simp [h a (List.mem_cons_self a as)]

theorem pyStrip_of_no_ws (w : List Nat) (h : ∀ c ∈ w, isPyWs c = false) :
    pyStrip w = w := by
  unfold pyStrip
  rw [dropWhile_of_no _ _ h, dropWhile_of_no, List.reverse_reverse]
  intro c hc
  exact h c (List.mem_reverse.mp hc)

/-- C5: for every reply string, the relevance flag parsed by the code (first
token, lowercased, stripped, substring test) equals the spec's reading
(first whitespace-delimited token of the lowercased reply contains "yes");
in particular a reply with no token parses to `false`. -/
theorem C5_relevance_parsing (reply : String) :
    (parseVerdict reply).1 = relevant_spec reply := by
  unfold parseVerdict parseReply relevant_spec
  simp only []
  have hcomm := pySplitAux_map_pyLower (codePoints reply) []
  simp only [List.map_nil] at hcomm
  unfold pySplit
  rw [hcomm]
  cases h : pySplitAux (codePoints reply) [] with
  | nil => rfl
  | cons w ws =>
    simp only [List.map_cons]
    have hno : ∀ c ∈ w, isPyWs c = false := by
      refine pySplitAux_no_ws (codePoints reply) [] (by simp) w ?_
      rw [h]; exact List.mem_cons_self w ws
    have hno' : ∀ c ∈ w.map pyLower, isPyWs c = false := by
      intro c hc
      rcases List.mem_map.mp hc with ⟨d, hd, rfl⟩
      rw [isPyWs_pyLower]
      exact hno d hd
    rw [pyStrip_of_no_ws _ hno']

/-! ## C6: year parsing with fragment reassembly -/

theorem yearAt_range (l : List Nat) (y : Int) (h : yearAt l = some y) :
    1900 ≤ y ∧ y ≤ 2099 := by
  match l with
  | [] => simp [yearAt] at h
  | [c1] => simp [yearAt] at h
  | [c1, c2] => simp [yearAt] at h
  | [c1, c2, c3] => simp [yearAt] at h
  | c1 :: c2 :: c3 :: c4 :: rest =>
    simp only [yearAt] at h
    split at h
    · next hcond =>
      obtain ⟨h12, h3, h4, -⟩ := hcond
      simp only [isReDigit, Bool.and_eq_true, decide_eq_true_eq] at h3 h4
      injection h with h
      subst h
      rcases h12 with ⟨rfl, rfl⟩ | ⟨rfl, rfl⟩ <;>
        constructor <;> omega
    · exact absurd h (by simp)

theorem searchYearAux_range (l : List Nat) :
    ∀ (prev : Option Nat) (y : Int), searchYearAux prev l = some y →
      1900 ≤ y ∧ y ≤ 2099 := by
  induction l with
  | nil => intro prev y h; simp [searchYearAux] at h
  | cons c cs ih =>
    intro prev y h
    simp only [searchYearAux] at h
    split at h
    · cases hy : yearAt (c :: cs) with
      | some y' =>
        rw [hy] at h
        injection h with h
        subst h
        exact yearAt_range _ _ hy
      | none =>
        rw [hy] at h
        exact ih (some c) y h
    · exact ih (some c) y h

/-- C6 counterexample: the reply `"yes 202\t5"` holds the digit fragments
`202` and `5` separated only by whitespace (a tab), so the claim's
reassembly-then-scan procedure (`year_spec`, which removes the whitespace
inside a matched fragment group) yields 2025 — but the code's
`replace(" ", "")` removes only space characters, leaves the tab in place,
and the code parses the year as absent. -/
theorem C6_counterexample :
    (parseVerdict "yes 202\t5").2 = none ∧
    year_spec "yes 202\t5" = some 2025 ∧
    (parseVerdict "yes 202\t5").2 ≠ year_spec "yes 202\t5" := by
  refine ⟨by decide, by decide, by decide⟩

/-- C6 amended: the reassembly deletes only space characters (U+0020) inside
each matched fragment group, in 3 passes, and then the 19xx/20xx scan runs;
fragments separated by other whitespace are matched but not re-joined.  The
claim's example still holds — `"yes\n202 5"` parses to
`(relevant = true, year = 2025)` — the year equals the scan of the
three-pass space-rejoined text for every reply, and the parse never fails:
the year is either absent or a value in 1900-2099. -/
theorem C6_year_parsing_amended :
    parseVerdict "yes\n202 5" = (true, some 2025) ∧
    (∀ s : String, (parseVerdict s).2 = searchYear (reSubYear3 (codePoints s))) ∧
    (∀ s : String, (parseVerdict s).2 = none ∨
      ∃ y : Int, (parseVerdict s).2 = some y ∧ 1900 ≤ y ∧ y ≤ 2099) := by
  refine ⟨by decide, fun s => rfl, fun s => ?_⟩
  cases h : (parseVerdict s).2 with
  | none => exact Or.inl rfl
  | some y =>
    refine Or.inr ⟨y, rfl, ?_⟩
    have : searchYearAux none (reSubYear3 (codePoints s)) = some y := h
    exact searchYearAux_range _ _ _ this

/-! ## Pipeline lemmas shared by the dedup and prefix claims -/

theorem hash_found_iff (fds : List FeedData) (h : String) :
    (fds.any fun fd => fd.hash == h) = true ↔ ∃ fd ∈ fds, fd.hash = h := by
  simp [List.any_eq_true, beq_iff_eq]

theorem processCandidate_skip (fn up : String) (ty : Int)
    (cl : String → String → Bool × Option Int) (ck : Nat → Int)
    (s : RunState) (c : Candidate)
    (h : ∃ fd ∈ s.db.feed_data, fd.hash = candHash c) :
    processCandidate fn up ty cl ck s c = s := by
  have hc : (s.db.feed_data.any
      fun fd => fd.hash == generate_hash c.title c.link c.additional_info) = true :=
    (hash_found_iff _ _).mpr h
  simp only [processCandidate, hc, if_true]

theorem processCandidate_mem (fn up : String) (ty : Int)
    (cl : String → String → Bool × Option Int) (ck : Nat → Int)
    (s : RunState) (c : Candidate) (fd : FeedData)
    (h : fd ∈ s.db.feed_data) :
    fd ∈ (processCandidate fn up ty cl ck s c).db.feed_data := by
  simp only [processCandidate]
  split
  · exact h
  · simp only [List.mem_append]
    exact Or.inl h

theorem processCandidate_hash_present (fn up : String) (ty : Int)
    (cl : String → String → Bool × Option Int) (ck : Nat → Int)
    (s : RunState) (c : Candidate) :
    ∃ fd ∈ (processCandidate fn up ty cl ck s c).db.feed_data,
      fd.hash = candHash c := by
  simp only [processCandidate]
  split
  · next hc =>
    exact (hash_found_iff _ _).mp hc
  · refine ⟨⟨fn, c.title, up ++ c.link, c.additional_info,
      generate_hash c.title c.link c.additional_info,
      skip_ai_flag (cl c.title c.article_html).1 (cl c.title c.article_html).2 ty,
      ck s.tick⟩, by simp, rfl⟩

theorem runFold_mem (fn up : String) (ty : Int)
    (cl : String → String → Bool × Option Int) (ck : Nat → Int)
    (cands : List Candidate) :
    ∀ (s : RunState) (fd : FeedData), fd ∈ s.db.feed_data →
      fd ∈ (cands.foldl (processCandidate fn up ty cl ck) s).db.feed_data := by
  induction cands with
  | nil => intro s fd h; exact h
  | cons c cs ih =>
    intro s fd h
    exact ih _ fd (processCandidate_mem fn up ty cl ck s c fd h)

theorem runFold_hash_present (fn up : String) (ty : Int)
    (cl : String → String → Bool × Option Int) (ck : Nat → Int)
    (cands : List Candidate) :
    ∀ (s : RunState) (c : Candidate), c ∈ cands →
      ∃ fd ∈ (cands.foldl (processCandidate fn up ty cl ck) s).db.feed_data,
        fd.hash = candHash c := by
  induction cands with
  | nil => intro s c h; exact absurd h (List.not_mem_nil c)
  | cons c' cs ih =>
    intro s c h
    rcases List.mem_cons.mp h with rfl | h
    · obtain ⟨fd, hfd, hh⟩ := processCandidate_hash_present fn up ty cl ck s c
      exact ⟨fd, runFold_mem fn up ty cl ck cs _ fd hfd, hh⟩
    · exact ih _ c h

theorem runFold_skip_all (fn up : String) (ty : Int)
    (cl : String → String → Bool × Option Int) (ck : Nat → Int)
    (cands : List Candidate) :
    ∀ s : RunState,
      (∀ c ∈ cands, ∃ fd ∈ s.db.feed_data, fd.hash = candHash c) →
      cands.foldl (processCandidate fn up ty cl ck) s = s := by
  induction cands with
  | nil => intro s _; rfl
  | cons c cs ih =>
    intro s h
    have hskip := processCandidate_skip fn up ty cl ck s c
      (h c (List.mem_cons_self c cs))
    simp only [List.foldl_cons, hskip]
    exact ih s (fun c' hc' => h c' (List.mem_cons_of_mem c hc'))

theorem parse_feed_data_eq (fn up : String) (ty : Int)
    (cl : String → String → Bool × Option Int) (ck : Nat → Int)
    (resp : Except String HttpResponse) (extract : String → List Candidate)
    (db : DB) (html : String) (hf : fetch_html resp = some html) :
    (parse_and_store_feed fn up ty cl ck resp extract db).1.feed_data =
      (runCandidates fn up ty cl ck db (extract html)).db.feed_data := by
  unfold parse_and_store_feed
  rw [hf]

theorem rerun_no_insert (fn up : String) (ty : Int)
    (cl : String → String → Bool × Option Int) (ck : Nat → Int)
    (fn2 up2 : String) (ty2 : Int)
    (cl2 : String → String → Bool × Option Int) (ck2 : Nat → Int)
    (resp : Except String HttpResponse) (extract : String → List Candidate)
    (db : DB) (html : String) (hf : fetch_html resp = some html) :
    (parse_and_store_feed fn2 up2 ty2 cl2 ck2 resp extract
        (parse_and_store_feed fn up ty cl ck resp extract db).1).1.feed_data =
      (parse_and_store_feed fn up ty cl ck resp extract db).1.feed_data ∧
    (parse_and_store_feed fn2 up2 ty2 cl2 ck2 resp extract
        (parse_and_store_feed fn up ty cl ck resp extract db).1).2 = [] := by
  set db1 := (parse_and_store_feed fn up ty cl ck resp extract db).1 with hdb1
  have hdata : db1.feed_data =
      (runCandidates fn up ty cl ck db (extract html)).db.feed_data := by
    rw [hdb1, parse_feed_data_eq fn up ty cl ck resp extract db html hf]
  have hall : ∀ c ∈ extract html, ∃ fd ∈ db1.feed_data, fd.hash = candHash c := by
    intro c hc
    rw [hdata]
    exact runFold_hash_present fn up ty cl ck (extract html) ⟨db, [], 0⟩ c hc
  have hfold : (extract html).foldl (processCandidate fn2 up2 ty2 cl2 ck2)
      ⟨db1, [], 0⟩ = ⟨db1, [], 0⟩ :=
    runFold_skip_all fn2 up2 ty2 cl2 ck2 (extract html) ⟨db1, [], 0⟩ hall
  constructor
  · rw [parse_feed_data_eq fn2 up2 ty2 cl2 ck2 resp extract db1 html hf]
    unfold runCandidates
    rw [hfold]
  · unfold parse_and_store_feed
    rw [hf]
    simp only [runCandidates, hfold]

theorem countHash_append (h : String) (l1 l2 : List FeedData) :
    countHash h (l1 ++ l2) = countHash h l1 + countHash h l2 := by
  simp [countHash, List.filter_append]

theorem processCandidate_count_le (fn up : String) (ty : Int)
    (cl : String → String → Bool × Option Int) (ck : Nat → Int)
    (s : RunState) (c : Candidate) (h : String)
    (hle : countHash h s.db.feed_data ≤ 1) :
    countHash h (processCandidate fn up ty cl ck s c).db.feed_data ≤ 1 := by
  simp only [processCandidate]
  split
  · exact hle
  · next hc =>
    rw [countHash_append]
    by_cases heq : generate_hash c.title c.link c.additional_info = h
    · have h0 : countHash h s.db.feed_data = 0 := by
        simp only [countHash, List.length_eq_zero, List.filter_eq_nil_iff]
        intro fd hfd
        intro hbe
        exact hc (List.any_eq_true.mpr ⟨fd, hfd, by rw [heq]; exact hbe⟩)
      have h1 : countHash h [⟨fn, c.title, up ++ c.link, c.additional_info,
          generate_hash c.title c.link c.additional_info,
          skip_ai_flag (cl c.title c.article_html).1
            (cl c.title c.article_html).2 ty, ck s.tick⟩] ≤ 1 := by
        refine le_trans (List.length_filter_le _ _) ?_
        simp
      omega
    · have h1 : countHash h [⟨fn, c.title, up ++ c.link, c.additional_info,
          generate_hash c.title c.link c.additional_info,
          skip_ai_flag (cl c.title c.article_html).1
            (cl c.title c.article_html).2 ty, ck s.tick⟩] = 0 := by
        simp [countHash, heq]
      omega

theorem runFold_count_le (fn up : String) (ty : Int)
    (cl : String → String → Bool × Option Int) (ck : Nat → Int)
    (cands : List Candidate) (h : String) :
    ∀ s : RunState, countHash h s.db.feed_data ≤ 1 →
      countHash h
        (cands.foldl (processCandidate fn up ty cl ck) s).db.feed_data ≤ 1 := by
  induction cands with
  | nil => intro s hs; exact hs
  | cons c cs ih =>
    intro s hs
    exact ih _ (processCandidate_count_le fn up ty cl ck s c h hs)

theorem countHash_pos_of_mem (h : String) (fds : List FeedData)
    (hf : ∃ fd ∈ fds, fd.hash = h) : 1 ≤ countHash h fds := by
  obtain ⟨fd, hfd, hh⟩ := hf
  have : fd ∈ fds.filter fun fd => fd.hash == h :=
    List.mem_filter.mpr ⟨hfd, by rw [hh]; exact beq_self_eq_true _⟩
  have := List.length_pos.mpr (List.ne_nil_of_mem this)
  simpa [countHash] using this

/-! ## C2: dedup idempotence -/

/-- C2: (a) running the pipeline a second time over identical fetched
content inserts no row and makes no classifier call; (b) a candidate whose
fingerprint is already stored — with either value of the accepted flag — is
skipped leaving the whole run state (store, classifier log, clock)
untouched; (c) a candidate with a fresh fingerprint is persisted
unconditionally, whatever its verdict, and the classifier is invoked exactly
for it; (d) after the two runs the store holds exactly one row per
fingerprint of an extracted candidate that was previously unseen. -/
theorem C2_dedup_idempotence :
    (∀ (fn up : String) (ty : Int)
      (cl : String → String → Bool × Option Int) (ck ck2 : Nat → Int)
      (resp : Except String HttpResponse) (extract : String → List Candidate)
      (db : DB) (html : String), fetch_html resp = some html →
      (parse_and_store_feed fn up ty cl ck2 resp extract
          (parse_and_store_feed fn up ty cl ck resp extract db).1).1.feed_data =
        (parse_and_store_feed fn up ty cl ck resp extract db).1.feed_data ∧
      (parse_and_store_feed fn up ty cl ck2 resp extract
          (parse_and_store_feed fn up ty cl ck resp extract db).1).2 = []) ∧
    (∀ (fn up : String) (ty : Int)
      (cl : String → String → Bool × Option Int) (ck : Nat → Int)
      (s : RunState) (c : Candidate),
      (∃ fd ∈ s.db.feed_data, fd.hash = candHash c) →
      processCandidate fn up ty cl ck s c = s) ∧
    (∀ (fn up : String) (ty : Int)
      (cl : String → String → Bool × Option Int) (ck : Nat → Int)
      (s : RunState) (c : Candidate),
      (¬ ∃ fd ∈ s.db.feed_data, fd.hash = candHash c) →
      (processCandidate fn up ty cl ck s c).db.feed_data =
        s.db.feed_data ++
          [⟨fn, c.title, up ++ c.link, c.additional_info, candHash c,
            skip_ai_flag (cl c.title c.article_html).1
              (cl c.title c.article_html).2 ty, ck s.tick⟩] ∧
      (processCandidate fn up ty cl ck s c).calls =
        s.calls ++ [(c.title, c.article_html)]) ∧
    (∀ (fn up : String) (ty : Int)
      (cl : String → String → Bool × Option Int) (ck ck2 : Nat → Int)
      (resp : Except String HttpResponse) (extract : String → List Candidate)
      (db : DB) (html : String) (c : Candidate),
      fetch_html resp = some html → c ∈ extract html →
      countHash (candHash c) db.feed_data = 0 →
      countHash (candHash c)
        (parse_and_store_feed fn up ty cl ck2 resp extract
          (parse_and_store_feed fn up ty cl ck resp extract db).1).1.feed_data
        = 1) := by
  refine ⟨?_, ?_, ?_, ?_⟩
  · intro fn up ty cl ck ck2 resp extract db html hf
    exact rerun_no_insert fn up ty cl ck fn up ty cl ck2 resp extract db html hf
  · intro fn up ty cl ck s c h
    exact processCandidate_skip fn up ty cl ck s c h
  · intro fn up ty cl ck s c h
    have hc : (s.db.feed_data.any
        fun fd => fd.hash == generate_hash c.title c.link c.additional_info)
        = false := by
      rw [← Bool.not_eq_true]
      intro habs
      exact h ((hash_found_iff _ _).mp habs)
    constructor
    · simp only [processCandidate, hc, Bool.false_eq_true, if_false]
      rfl
    · simp only [processCandidate, hc, Bool.false_eq_true, if_false]
  · intro fn up ty cl ck ck2 resp extract db html c hf hc h0
    have hrerun := rerun_no_insert fn up ty cl ck fn up ty cl ck2 resp extract
      db html hf
    rw [hrerun.1]
    rw [parse_feed_data_eq fn up ty cl ck resp extract db html hf]
    have hle : countHash (candHash c)
        (runCandidates fn up ty cl ck db (extract html)).db.feed_data ≤ 1 := by
      refine runFold_count_le fn up ty cl ck (extract html) (candHash c)
        ⟨db, [], 0⟩ ?_
      simp [h0]
    have hge : 1 ≤ countHash (candHash c)
        (runCandidates fn up ty cl ck db (extract html)).db.feed_data :=
      countHash_pos_of_mem _ _
        (runFold_hash_present fn up ty cl ck (extract html) ⟨db, [], 0⟩ c hc)
    omega

/-- Witness for C2 at concrete inputs: a first run over one candidate from
the empty store followed by a second identical run changes nothing and logs
no classifier call, leaving exactly one row with the candidate's
fingerprint; and a candidate whose fingerprint sits in the store as a
rejected row (`skip_ai = true`) is skipped with the run state unchanged. -/
theorem C2_dedup_idempotence_witness :
    ((parse_and_store_feed "f" "p" 2025 classify0 clock0 resp200 extract0
        (parse_and_store_feed "f" "p" 2025 classify0 clock0 resp200 extract0
          db0).1).1.feed_data =
      (parse_and_store_feed "f" "p" 2025 classify0 clock0 resp200 extract0
        db0).1.feed_data) ∧
    ((parse_and_store_feed "f" "p" 2025 classify0 clock0 resp200 extract0
        (parse_and_store_feed "f" "p" 2025 classify0 clock0 resp200 extract0
          db0).1).2 = []) ∧
    (processCandidate "f" "p" 2025 classify0 clock0 ⟨dbSeen, [], 0⟩ cand0 =
      ⟨dbSeen, [], 0⟩) ∧
    (countHash (candHash cand0)
      (parse_and_store_feed "f" "p" 2025 classify0 clock0 resp200 extract0
        (parse_and_store_feed "f" "p" 2025 classify0 clock0 resp200 extract0
          db0).1).1.feed_data = 1) := by
  have hf : fetch_html resp200 = some "page" := rfl
  refine ⟨?_, ?_, ?_, ?_⟩
  · exact (C2_dedup_idempotence.1 "f" "p" 2025 classify0 clock0 clock0 resp200
      extract0 db0 "page" hf).1
  · exact (C2_dedup_idempotence.1 "f" "p" 2025 classify0 clock0 clock0 resp200
      extract0 db0 "page" hf).2
  · exact C2_dedup_idempotence.2.1 "f" "p" 2025 classify0 clock0 ⟨dbSeen, [], 0⟩
      cand0 ⟨⟨"f", "t", "p" ++ "l", "i", candHash cand0, true, 0⟩,
        by simp [dbSeen], rfl⟩
  · exact C2_dedup_idempotence.2.2.2 "f" "p" 2025 classify0 clock0 clock0
      resp200 extract0 db0 "page" cand0 hf (by simp [extract0]) rfl

/-! ## C10: fingerprints use the raw link; url prefix changes are harmless -/

theorem runFold_new_shape (fn up : String) (ty : Int)
    (cl : String → String → Bool × Option Int) (ck : Nat → Int)
    (cands : List Candidate) :
    ∀ (s : RunState) (fd : FeedData),
      fd ∈ (cands.foldl (processCandidate fn up ty cl ck) s).db.feed_data →
      fd ∈ s.db.feed_data ∨
        ∃ c ∈ cands, fd.title = c.title ∧ fd.link = up ++ c.link ∧
          fd.additional_info = c.additional_info ∧ fd.hash = candHash c := by
  induction cands with
  | nil => intro s fd h; exact Or.inl h
  | cons c cs ih =>
    intro s fd h
    rcases ih _ fd h with h' | ⟨c', hc', hp⟩
    · simp only [processCandidate] at h'
      split at h'
      · exact Or.inl h'
      · rcases List.mem_append.mp h' with hin | hnew
        · exact Or.inl hin
        · simp only [List.mem_singleton] at hnew
          subst hnew
          exact Or.inr ⟨c, List.mem_cons_self c cs, rfl, rfl, rfl, rfl⟩
    · exact Or.inr ⟨c', List.mem_cons_of_mem c hc', hp⟩

/-- C10: (i) every row a run inserts carries the fingerprint of the raw
extracted link — its stored link is `url_prefix ++ raw` and its hash is
`generate_hash title raw additional_info`, i.e. the hash of the stored link
stripped of the prefix; (ii) a second run over the same fetched content with
a different `url_prefix` inserts nothing and makes no classifier call, so
item identity does not depend on the configured prefix. -/
theorem C10_raw_link_fingerprint :
    (∀ (fn up : String) (ty : Int)
      (cl : String → String → Bool × Option Int) (ck : Nat → Int)
      (resp : Except String HttpResponse) (extract : String → List Candidate)
      (db : DB) (html : String) (fd : FeedData),
      fetch_html resp = some html →
      fd ∈ (parse_and_store_feed fn up ty cl ck resp extract db).1.feed_data →
      fd ∉ db.feed_data →
      ∃ raw, fd.link = up ++ raw ∧
        fd.hash = generate_hash fd.title raw fd.additional_info) ∧
    (∀ (fn up up2 : String) (ty : Int)
      (cl : String → String → Bool × Option Int) (ck ck2 : Nat → Int)
      (resp : Except String HttpResponse) (extract : String → List Candidate)
      (db : DB) (html : String), fetch_html resp = some html →
      (parse_and_store_feed fn up2 ty cl ck2 resp extract
          (parse_and_store_feed fn up ty cl ck resp extract db).1).1.feed_data =
        (parse_and_store_feed fn up ty cl ck resp extract db).1.feed_data ∧
      (parse_and_store_feed fn up2 ty cl ck2 resp extract
          (parse_and_store_feed fn up ty cl ck resp extract db).1).2 = []) := by
  constructor
  · intro fn up ty cl ck resp extract db html fd hf hmem hnot
    rw [parse_feed_data_eq fn up ty cl ck resp extract db html hf] at hmem
    rcases runFold_new_shape fn up ty cl ck (extract html) ⟨db, [], 0⟩ fd hmem
      with h | ⟨c, -, ht, hl, ha, hh⟩
    · exact absurd h hnot
    · exact ⟨c.link, hl, by rw [ht, ha]; exact hh⟩
  · intro fn up up2 ty cl ck ck2 resp extract db html hf
    exact rerun_no_insert fn up ty cl ck fn up2 ty cl ck2 resp extract db html hf

/-- Witness for C10 at concrete inputs: the row inserted by a run with
prefix `"p"` fingerprints the raw link, and a second run with prefix `"q"`
over the same content changes nothing and calls no classifier. -/
theorem C10_raw_link_fingerprint_witness :
    (∃ raw, ("p" ++ "l" : String) = "p" ++ raw ∧
      candHash cand0 = generate_hash "t" raw "i") ∧
    ((parse_and_store_feed "f" "q" 2025 classify0 clock0 resp200 extract0
        (parse_and_store_feed "f" "p" 2025 classify0 clock0 resp200 extract0
          db0).1).1.feed_data =
      (parse_and_store_feed "f" "p" 2025 classify0 clock0 resp200 extract0
        db0).1.feed_data) ∧
    ((parse_and_store_feed "f" "q" 2025 classify0 clock0 resp200 extract0
        (parse_and_store_feed "f" "p" 2025 classify0 clock0 resp200 extract0
          db0).1).2 = []) := by
  have hf : fetch_html resp200 = some "page" := rfl
  have hdata : (parse_and_store_feed "f" "p" 2025 classify0 clock0 resp200
      extract0 db0).1.feed_data =
      [⟨"f", "t", "p" ++ "l", "i", candHash cand0, false, 0⟩] := by
    rw [parse_feed_data_eq "f" "p" 2025 classify0 clock0 resp200 extract0 db0
      "page" hf]
    simp [runCandidates, extract0, processCandidate, db0, classify0, cand0,
      candHash, clock0, skip_ai_flag, year_ok]
  have hmem : (⟨"f", "t", "p" ++ "l", "i", candHash cand0, false, 0⟩ : FeedData)
      ∈ (parse_and_store_feed "f" "p" 2025 classify0 clock0 resp200 extract0
        db0).1.feed_data := by
    rw [hdata]; exact List.mem_singleton.mpr rfl
  obtain ⟨raw, hl, hh⟩ := C10_raw_link_fingerprint.1 "f" "p" 2025 classify0
    clock0 resp200 extract0 db0 "page"
    ⟨"f", "t", "p" ++ "l", "i", candHash cand0, false, 0⟩ hf hmem (by simp [db0])
  refine ⟨⟨raw, hl, hh⟩, ?_, ?_⟩
  · exact (C10_raw_link_fingerprint.2 "f" "p" "q" 2025 classify0 clock0 clock0
      resp200 extract0 db0 "page" hf).1
  · exact (C10_raw_link_fingerprint.2 "f" "p" "q" 2025 classify0 clock0 clock0
      resp200 extract0 db0 "page" hf).2

/-! ## C3: failed fetch leaves the store unchanged -/

/-- C3 counterexample: the claim reads "fetch fails" as any non-2xx status,
but `raise_for_status` raises only for 400-599.  A `304 Not Modified`
response is not 2xx, yet `fetch_html` succeeds on it and the run proceeds to
mutate the store (here: it creates the feed's `feed_meta` row). -/
theorem C3_fetch_failure_counterexample :
    ¬(200 ≤ (304 : Nat) ∧ (304 : Nat) < 300) ∧
    fetch_html resp304 = some "" ∧
    (parse_and_store_feed "f" "p" 2025 classify0 clock0 resp304
      (fun _ => []) db0).1 ≠ db0 := by
  refine ⟨by omega, rfl, by decide⟩

theorem runFold_meta_eq (fn up : String) (ty : Int)
    (cl : String → String → Bool × Option Int) (ck : Nat → Int)
    (cands : List Candidate) :
    ∀ s : RunState,
      (cands.foldl (processCandidate fn up ty cl ck) s).db.feed_meta =
        s.db.feed_meta := by
  induction cands with
  | nil => intro s; rfl
  | cons c cs ih =>
    intro s
    rw [List.foldl_cons, ih]
    simp only [processCandidate]
    split <;> rfl

/-- C3 amended: `fetch_html` fails exactly on a transport error or an HTTP
status in 400-599 (not: any non-2xx status), and whenever it fails the run
returns with the store byte-for-byte unchanged — no item row is inserted and
`last_fetched` keeps its prior value (or stays absent) — and no classifier
call is made. -/
theorem C3_fetch_failure_amended :
    (∀ resp : Except String HttpResponse, fetch_html resp = none ↔
      ((∃ e, resp = Except.error e) ∨
        ∃ r, resp = Except.ok r ∧ 400 ≤ r.status ∧ r.status < 600)) ∧
    (∀ (fn up : String) (ty : Int)
      (cl : String → String → Bool × Option Int) (ck : Nat → Int)
      (resp : Except String HttpResponse) (extract : String → List Candidate)
      (db : DB), fetch_html resp = none →
      parse_and_store_feed fn up ty cl ck resp extract db = (db, [])) := by
  constructor
  · intro resp
    cases resp with
    | error e =>
      simp [fetch_html]
    | ok r =>
      by_cases hs : 400 ≤ r.status ∧ r.status < 600
      · simp only [fetch_html, raise_for_status, if_pos hs]
        constructor
        · intro _; exact Or.inr ⟨r, rfl, hs.1, hs.2⟩
        · intro _; trivial
      · simp only [fetch_html, raise_for_status, if_neg hs]
        constructor
        · intro h; exact absurd h (by simp)
        · rintro (⟨e, he⟩ | ⟨r', hr', h1, h2⟩)
          · exact absurd he (by simp)
          · injection hr' with hr''
            subst hr''
            exact absurd ⟨h1, h2⟩ hs
  · intro fn up ty cl ck resp extract db h
    unfold parse_and_store_feed
    rw [h]

/-- Witness for C3 (amended) at a concrete input: a 500 response leaves a
store that already has a meta row `(f, -5)` exactly as it was, and the
characterization applies to it. -/
theorem C3_fetch_failure_amended_witness :
    fetch_html resp500 = none ∧
    parse_and_store_feed "f" "p" 2025 classify0 clock0 resp500 extract0
      dbMeta = (dbMeta, []) := by
  have h : fetch_html resp500 = none :=
    (C3_fetch_failure_amended.1 resp500).mpr
      (Or.inr ⟨⟨500, "oops"⟩, rfl, by decide, by decide⟩)
  exact ⟨h, C3_fetch_failure_amended.2 "f" "p" 2025 classify0 clock0 resp500
    extract0 dbMeta h⟩

/-! ## C8: run finalization -/

/-- C8 counterexample: `last_fetched` is not set to the run's start time but
to a `datetime.now()` reading taken at finalization, after every insert of
the run.  Concretely, with the identity clock a run inserting one row stamps
the row `created = 0` (the run's first clock reading) and then writes
`last_fetched = 1`, which with a strictly increasing clock is later than
every instant of the run, in particular later than its start. -/
theorem C8_finalization_counterexample :
    (parse_and_store_feed "f" "p" 2025 classify0 clock0 resp200 extract0
      db0).1.feed_meta = [⟨"f", 1⟩] ∧
    (parse_and_store_feed "f" "p" 2025 classify0 clock0 resp200 extract0
      db0).1.feed_data =
      [⟨"f", "t", "p" ++ "l", "i", candHash cand0, false, 0⟩] ∧
    ((1 : Int) ≠ 0) := by
  refine ⟨?_, ?_, by omega⟩
  · unfold parse_and_store_feed
    simp [fetch_html, resp200, raise_for_status, runCandidates, extract0,
      processCandidate, db0, classify0, cand0, clock0, skip_ai_flag, year_ok]
  · rw [parse_feed_data_eq "f" "p" 2025 classify0 clock0 resp200 extract0 db0
      "page" rfl]
    simp [runCandidates, extract0, processCandidate, db0, classify0, cand0,
      candHash, clock0, skip_ai_flag, year_ok]

/-- C8 amended: on every successful fetch the run upserts the feed's
`feed_meta` row to the clock reading taken at finalization (after all
inserts; not the run's start time): the row is created when the feed had
none, the first matching row is updated when it had one, rows of other feeds
are untouched, and no modelled operation (run, failed run, retention sweep,
bulk clear) ever deletes a `feed_meta` row. -/
theorem C8_finalization_amended :
    (∀ (fn up : String) (ty : Int)
      (cl : String → String → Bool × Option Int) (ck : Nat → Int)
      (resp : Except String HttpResponse) (extract : String → List Candidate)
      (db : DB) (html : String), fetch_html resp = some html →
      (∀ m ∈ db.feed_meta, m.feed_name ≠ fn) →
      (parse_and_store_feed fn up ty cl ck resp extract db).1.feed_meta =
        db.feed_meta ++
          [⟨fn, ck (runCandidates fn up ty cl ck db (extract html)).tick⟩]) ∧
    (∀ (fn up : String) (ty : Int)
      (cl : String → String → Bool × Option Int) (ck : Nat → Int)
      (resp : Except String HttpResponse) (extract : String → List Candidate)
      (db : DB) (html : String), fetch_html resp = some html →
      (∃ m ∈ db.feed_meta, m.feed_name = fn) →
      (parse_and_store_feed fn up ty cl ck resp extract db).1.feed_meta =
        updateFirstMeta fn
          (ck (runCandidates fn up ty cl ck db (extract html)).tick)
          db.feed_meta) ∧
    (∀ (fn : String) (now : Int) (metas : List FeedMeta) (name : String),
      (∃ m ∈ metas, m.feed_name = name) →
      ∃ m ∈ updateFirstMeta fn now metas, m.feed_name = name) ∧
    (∀ (now : Int) (db : DB),
      (cleanup_old_entries now db).1.feed_meta = db.feed_meta) ∧
    (∀ (fn : String) (db : DB), (clean_feed fn db).feed_meta = db.feed_meta) := by
  have hmeta : ∀ (fn up : String) (ty : Int)
      (cl : String → String → Bool × Option Int) (ck : Nat → Int) (db : DB)
      (cands : List Candidate),
      (runCandidates fn up ty cl ck db cands).db.feed_meta = db.feed_meta := by
    intro fn up ty cl ck db cands
    exact runFold_meta_eq fn up ty cl ck cands ⟨db, [], 0⟩
  refine ⟨?_, ?_, ?_, fun now db => rfl, fun fn db => rfl⟩
  · intro fn up ty cl ck resp extract db html hf hnone
    unfold parse_and_store_feed
    rw [hf]
    simp only [hmeta]
    have hany : (db.feed_meta.any fun m => m.feed_name == fn) = false := by
      rw [← Bool.not_eq_true, List.any_eq_true]
      rintro ⟨m, hm, hbe⟩
      exact hnone m hm (by simpa using hbe)
    simp [hany]
  · intro fn up ty cl ck resp extract db html hf hsome
    unfold parse_and_store_feed
    rw [hf]
    simp only [hmeta]
    have hany : (db.feed_meta.any fun m => m.feed_name == fn) = true := by
      obtain ⟨m, hm, he⟩ := hsome
      exact List.any_eq_true.mpr ⟨m, hm, by simp [he]⟩
    simp [hany]
  · intro fn now metas name
    induction metas with
    | nil => rintro ⟨m, hm, -⟩; exact absurd hm (List.not_mem_nil m)
    | cons m ms ih =>
      rintro ⟨m', hm', he⟩
      rcases List.mem_cons.mp hm' with rfl | hm'
      · simp only [updateFirstMeta]
        split
        · exact ⟨⟨m'.feed_name, now⟩, List.mem_cons_self _ _, he⟩
        · exact ⟨m', List.mem_cons_self _ _, he⟩
      · simp only [updateFirstMeta]
        split
        · exact ⟨m', List.mem_cons_of_mem _ hm', he⟩
        · obtain ⟨m'', hm'', he''⟩ := ih ⟨m', hm', he⟩
          exact ⟨m'', List.mem_cons_of_mem _ hm'', he''⟩

/-- Witness for C8 (amended) at concrete inputs: on the empty store the run
creates the meta row stamped with the finalization reading; on a store with
a prior row it updates that row. -/
theorem C8_finalization_amended_witness :
    (parse_and_store_feed "f" "p" 2025 classify0 clock0 resp200 extract0
      db0).1.feed_meta =
      db0.feed_meta ++
        [⟨"f", clock0 (runCandidates "f" "p" 2025 classify0 clock0 db0
          (extract0 "page")).tick⟩] ∧
    (parse_and_store_feed "f" "p" 2025 classify0 clock0 resp200 extract0
      dbMeta).1.feed_meta =
      updateFirstMeta "f" (clock0 (runCandidates "f" "p" 2025 classify0 clock0
        dbMeta (extract0 "page")).tick) dbMeta.feed_meta := by
  constructor
  · exact C8_finalization_amended.1 "f" "p" 2025 classify0 clock0 resp200
      extract0 db0 "page" rfl (by simp [db0])
  · exact C8_finalization_amended.2.1 "f" "p" 2025 classify0 clock0 resp200
      extract0 dbMeta "page" rfl ⟨⟨"f", -5⟩, by simp [dbMeta], rfl⟩

/-! ## C7: the fingerprint function -/

theorem sha256hex_length (msg : List Nat) : (sha256hex msg).length = 64 := by
  simp [sha256hex, hexWord]

theorem generate_hash_length (t l a : String) :
    (generate_hash t l a).length = 64 := by
  show (List.map Char.ofNat (sha256hex (strBytes (hash_input t l a)))).length = 64
  rw [List.length_map, sha256hex_length]

/-- C7 counterexample: `generate_hash` concatenates the three fields with no
separator, so moving a character across a field boundary leaves the hash
input — and hence the digest — unchanged: the distinct triples
`("ab", "c", "d")` and `("a", "bc", "d")` fingerprint-collide. -/
theorem C7_fingerprint_counterexample :
    generate_hash "ab" "c" "d" = generate_hash "a" "bc" "d" ∧
    (("ab", "c", "d") : String × String × String) ≠ ("a", "bc", "d") := by
  constructor
  · have h : hash_input "ab" "c" "d" = hash_input "a" "bc" "d" := by decide
    unfold generate_hash
    rw [h]
  · decide

/-- C7 amended: the fingerprint is the deterministic fixed-length (64
hex characters) SHA-256 digest of the concatenation of the three fields in
the fixed order title-link-metadata; being a pure function, identical input
always yields identical output.  But the fields are joined with no
separator, so any two triples whose concatenations agree — in particular
triples differing only by moving characters across field boundaries —
receive the same fingerprint. -/
theorem C7_fingerprint_amended :
    (∀ t l a : String, (generate_hash t l a).length = 64) ∧
    (∀ t1 l1 a1 t2 l2 a2 : String,
      hash_input t1 l1 a1 = hash_input t2 l2 a2 →
      generate_hash t1 l1 a1 = generate_hash t2 l2 a2) := by
  refine ⟨generate_hash_length, ?_⟩
  intro t1 l1 a1 t2 l2 a2 h
  unfold generate_hash
  rw [h]

/-- Witness for C7 (amended) at concrete strings. -/
theorem C7_fingerprint_amended_witness :
    (generate_hash "ab" "c" "d").length = 64 ∧
    generate_hash "ab" "c" "d" = generate_hash "a" "bc" "d" :=
  ⟨C7_fingerprint_amended.1 "ab" "c" "d",
    C7_fingerprint_amended.2 "ab" "c" "d" "a" "bc" "d" (by decide)⟩
